import Mathlib

/-!
Verification development for the dm-haiku repository slice
(docs/notebooks/basics.ipynb and examples/transformer/BUILD).

The notebook demonstrates the `hk.transform` / `hk.transform_with_state`
machinery: object-oriented modules that declare parameters and state are
converted into pure `init` / `apply` functions.  The haiku library
implementation itself is not part of the supplied files, so the
transformation mechanism is modelled from the spec (an implicit traversal
context collecting named parameters and state into nested mappings keyed by
module path, with deterministic per-call-site random-key derivation).
Array values are modelled as single integers: the claims under study are
about registry structure, purity and key derivation, not numerics.
-/

namespace Haiku

/-- An inner mapping from parameter or state names to values, as an
association list (models one inner `FlatMapping`). -/
abbrev Inner := List (String × Int)

/-- The outer mapping from module-path keys to inner mappings
(models the outer `FlatMapping` returned by `init`). -/
abbrev Registry := List (String × Inner)

/-- Lookup in an inner mapping. -/
def Inner.find : Inner → String → Option Int
  | [], _ => none
  | (k, v) :: rest, n => if k = n then some v else Inner.find rest n

/-- Insert or overwrite in an inner mapping, keeping first-insertion order. -/
def Inner.insert : Inner → String → Int → Inner
  | [], n, v => [(n, v)]
  | (k, w) :: rest, n, v =>
      if k = n then (k, v) :: rest else (k, w) :: Inner.insert rest n v

/-- Lookup of a (module path, name) entry in a registry. -/
def Registry.find2 : Registry → String → String → Option Int
  | [], _, _ => none
  | (p, m) :: rest, q, n =>
      if p = q then Inner.find m n else Registry.find2 rest q n

/-- Insert or overwrite a (module path, name) entry in a registry,
keeping first-insertion order. -/
def Registry.insert2 : Registry → String → String → Int → Registry
  | [], q, n, v => [(q, [(n, v)])]
  | (p, m) :: rest, q, n, v =>
      if p = q then (p, Inner.insert m n v) :: rest
      else (p, m) :: Registry.insert2 rest q n v

/-- The two modes a transformed function body can run in. -/
inductive Mode where
  | initMode
  | applyMode
deriving DecidableEq

/-- Modelled from the spec: the implicit global-like context tracked during
a single traversal of the user module graph.  `params` collects the
parameters, `hstate` the current state values and `hstateInitial` the
state values as first created (haiku `init` reports initial state values,
`apply` reports current ones).  `rngKey`/`rngCount` drive deterministic
key splitting; `keysDrawn` is a ghost trace of the keys handed out. -/
structure HkContext where
  mode : Mode
  params : Registry
  hstate : Registry
  hstateInitial : Registry
  modulePath : String
  rngKey : Option Nat
  rngCount : Nat
  keysDrawn : List Nat
deriving DecidableEq

/-- Computations over the haiku context: state passing with failure. -/
def HaikuM (α : Type) : Type := HkContext → Except String (α × HkContext)

instance : Monad HaikuM where
  pure a := fun s => .ok (a, s)
  bind m f := fun s =>
    match m s with
    | .error e => .error e
    | .ok (a, s') => f a s'

/-- The registry key for the current module path; declarations made outside
of any module go under the reserved top-level key. -/
def pathKey (s : HkContext) : String :=
  if s.modulePath = "" then "~" else s.modulePath

/-- Modelled from the spec: deterministic derivation of the n-th key handed
out from the single initial key (an injective pairing stands in for the
key-splitting function of the host framework). -/
def deriveKey (k n : Nat) : Nat := Nat.pair k n

/-- Modelled from the spec: `hk.next_rng_key()` returns a unique key
deterministically derived from the initial key of the transformed
function; it fails when no key was supplied. -/
def next_rng_key : HaikuM Nat := fun s =>
  match s.rngKey with
  | none => .error "next rng key requested but no rng was supplied"
  | some k =>
      let fresh := deriveKey k s.rngCount
      .ok (fresh,
        { s with rngCount := s.rngCount + 1, keysDrawn := s.keysDrawn ++ [fresh] })

/-- Modelled from the spec: `hk.get_parameter` returns the parameter
registered under (current module path, name); during `init` a missing
parameter is created by running its initializer (which may draw rng keys),
during `apply` a missing parameter is an error. -/
def get_parameter (name : String) (initFn : HaikuM Int) : HaikuM Int := fun s =>
  match s.params.find2 (pathKey s) name with
  | some v => .ok (v, s)
  | none =>
      match s.mode with
      | .applyMode => .error ("missing parameter " ++ pathKey s ++ "/" ++ name)
      | .initMode =>
          match initFn s with
          | .error e => .error e
          | .ok (v, s') =>
              .ok (v, { s' with params := s'.params.insert2 (pathKey s) name v })

/-- Modelled from the spec: `hk.get_state` returns the current state value
under (current module path, name); during `init` a missing entry is
created from its initializer and recorded both as current and as initial
value, during `apply` a missing entry is an error. -/
def get_state (name : String) (initFn : HaikuM Int) : HaikuM Int := fun s =>
  match s.hstate.find2 (pathKey s) name with
  | some v => .ok (v, s)
  | none =>
      match s.mode with
      | .applyMode => .error ("missing state " ++ pathKey s ++ "/" ++ name)
      | .initMode =>
          match initFn s with
          | .error e => .error e
          | .ok (v, s') =>
              .ok (v, { s' with
                hstate := s'.hstate.insert2 (pathKey s) name v,
                hstateInitial := s'.hstateInitial.insert2 (pathKey s) name v })

/-- Modelled from the spec: `hk.set_state` overwrites the current state
value under (current module path, name); a write to a fresh name also
records the written value as the initial one. -/
def set_state (name : String) (v : Int) : HaikuM Unit := fun s =>
  let ini :=
    match s.hstateInitial.find2 (pathKey s) name with
    | some _ => s.hstateInitial
    | none => s.hstateInitial.insert2 (pathKey s) name v
  .ok ((), { s with hstate := s.hstate.insert2 (pathKey s) name v,
                    hstateInitial := ini })

/-- Module paths are joined with the separator shown in the notebook
outputs. -/
def joinPath (p n : String) : String :=
  if p = "" then n else p ++ "/~/" ++ n

/-- Modelled from the spec: running a module method pushes the module name
onto the current path for the duration of the body. -/
def withModule (name : String) (body : HaikuM α) : HaikuM α := fun s =>
  match body { s with modulePath := joinPath s.modulePath name } with
  | .error e => .error e
  | .ok (a, s') => .ok (a, { s' with modulePath := s.modulePath })

/-- The fresh traversal context used by `init`. -/
def initCtx (rng : Option Nat) : HkContext :=
  { mode := .initMode, params := [], hstate := [], hstateInitial := []
    modulePath := "", rngKey := rng, rngCount := 0, keysDrawn := [] }

/-- The traversal context used by `apply`: parameters and state come in
from outside. -/
def applyCtx (params st : Registry) (rng : Option Nat) : HkContext :=
  { mode := .applyMode, params := params, hstate := st, hstateInitial := st
    modulePath := "", rngKey := rng, rngCount := 0, keysDrawn := [] }

/-- The pure pair of functions produced by `hk.transform`. -/
structure Transformed (α : Type) where
  init : Option Nat → Int → Except String Registry
  apply : Registry → Int → Option Nat → Except String α

/-- Modelled from the spec: `hk.transform` converts an impure function into
a pure `init` collecting the declared parameters and a pure `apply`
computing the output from explicit parameters. -/
def transform (f : Int → HaikuM α) : Transformed α where
  init rng x :=
    match f x (initCtx rng) with
    | .error e => .error e
    | .ok (_, s) => .ok s.params
  apply params x rng :=
    match f x (applyCtx params [] rng) with
    | .error e => .error e
    | .ok (a, _) => .ok a

/-- The pure pair of functions produced by `hk.transform_with_state`. -/
structure TransformedWithState (α : Type) where
  init : Option Nat → Int → Except String (Registry × Registry)
  apply : Registry → Registry → Int → Option Nat → Except String (α × Registry)

/-- Modelled from the spec: `hk.transform_with_state` additionally threads
the state explicitly: `init` returns (params, initial state) and `apply`
returns (output, new state). -/
def transform_with_state (f : Int → HaikuM α) : TransformedWithState α where
  init rng x :=
    match f x (initCtx rng) with
    | .error e => .error e
    | .ok (_, s) => .ok (s.params, s.hstateInitial)
  apply params st x rng :=
    match f x (applyCtx params st rng) with
    | .error e => .error e
    | .ok (a, s) => .ok (a, s.hstate)

/-- A transformed pair whose `apply` takes no rng argument. -/
structure TransformedNoRng (α : Type) where
  init : Option Nat → Int → Except String Registry
  apply : Registry → Int → Except String α

/-- Modelled from the spec: `hk.without_apply_rng` removes the rng argument
from `apply` (the body then runs with no key available) and leaves `init`
untouched. -/
def without_apply_rng (t : Transformed α) : TransformedNoRng α where
  init := t.init
  apply := fun p x => t.apply p x none

/-- A transformed-with-state pair whose `apply` takes no rng argument. -/
structure TransformedWithStateNoRng (α : Type) where
  init : Option Nat → Int → Except String (Registry × Registry)
  apply : Registry → Registry → Int → Except String (α × Registry)

/-- Modelled from the spec: `hk.without_apply_rng` on a
`transform_with_state` pair. -/
def without_apply_rng_with_state (t : TransformedWithState α) :
    TransformedWithStateNoRng α where
  init := t.init
  apply := fun p st x => t.apply p st x none

/-- Modelled from the spec: the concrete pseudo-random sample drawn from a
key; only the deterministic dependence on the key matters here, not the
distribution. -/
def sampleFromKey (k : Nat) : Int := Int.ofNat k

/-- The `hk.initializers.TruncatedNormal` initializer: draws one rng key
and samples from it. -/
def truncated_normal_init : HaikuM Int := do
  let k ← next_rng_key
  pure (sampleFromKey k)

/-- The `jnp.ones` initializer. -/
def ones_init : HaikuM Int := pure 1

/-- The `jnp.zeros` initializer (default bias initializer of `hk.Linear`). -/
def zeros_init : HaikuM Int := pure 0

/-- The body of `MyLinear1.__call__` from the notebook: declares parameters
`w` (truncated-normal initialized) and `b` (ones initialized) under the
module's path and returns the affine image of the input. -/
def MyLinear1.call (nm : String) (x : Int) : HaikuM Int :=
  withModule nm (do
    let w ← get_parameter "w" truncated_normal_init
    let b ← get_parameter "b" ones_init
    pure (x * w + b))

/-- `_forward_fn_linear1` from the notebook. -/
def forward_fn_linear1 (x : Int) : HaikuM Int :=
  MyLinear1.call "my_linear1" x

/-- `forward_linear1 = hk.transform(_forward_fn_linear1)`. -/
def forward_linear1 : Transformed Int := transform forward_fn_linear1

/-- `forward_without_rng = hk.without_apply_rng(hk.transform(_forward_fn_linear1))`. -/
def forward_without_rng : TransformedNoRng Int :=
  without_apply_rng (transform forward_fn_linear1)

/-- `stateful_f` from the notebook: reads state `counter` and parameter
`multiplier` (both ones-initialized), increments the counter, and returns
`x + multiplier * counter` with the pre-increment counter. -/
def stateful_f (x : Int) : HaikuM Int := do
  let counter ← get_state "counter" ones_init
  let multiplier ← get_parameter "multiplier" ones_init
  set_state "counter" (counter + 1)
  pure (x + multiplier * counter)

/-- `stateful_forward = hk.without_apply_rng(hk.transform_with_state(stateful_f))`. -/
def stateful_forward : TransformedWithStateNoRng Int :=
  without_apply_rng_with_state (transform_with_state stateful_f)

/-- The loop of the notebook's stateful cell: thread the state through
successive `apply` calls on the same input, collecting the outputs and the
final state. -/
def applyLoop (params : Registry) (x : Int) : Registry → Nat →
    Except String (List Int × Registry)
  | st, 0 => .ok ([], st)
  | st, n + 1 =>
      match stateful_forward.apply params st x with
      | .error e => .error e
      | .ok (out, st') =>
          match applyLoop params x st' n with
          | .error e => .error e
          | .ok (outs, stf) => .ok (out :: outs, stf)

/-- `init` followed by `n` state-threaded `apply` calls, as in the
notebook's stateful cell. -/
def statefulRun (k : Nat) (x : Int) (n : Nat) :
    Except String (List Int × Registry) :=
  match stateful_forward.init (some k) x with
  | .error e => .error e
  | .ok (params, st0) => applyLoop params x st0 n

/-- The body of `hk.Linear.__call__` (the built-in linear layer used inside
`hk.nets.MLP`): parameter `w` truncated-normal initialized and `b`
zero-initialized. -/
def Linear.call (nm : String) (x : Int) : HaikuM Int :=
  withModule nm (do
    let w ← get_parameter "w" truncated_normal_init
    let b ← get_parameter "b" zeros_init
    pure (x * w + b))

/-- The body of `hk.nets.MLP(output_sizes=[2, 3])`: two linear layers whose
auto-assigned names are `linear_0` and `linear_1`. -/
def MLP.call (nm : String) (x : Int) : HaikuM Int :=
  withModule nm (do
    let h ← Linear.call "linear_0" x
    Linear.call "linear_1" h)

/-- The body of `MyModuleCustom.__call__` from the notebook: an internal
MLP named `hk_internal_linear` followed by a `MyLinear1` named
`old_linear`, all inside the module named `custom_linear`. -/
def MyModuleCustom.call (nm : String) (x : Int) : HaikuM Int :=
  withModule nm (do
    let h ← MLP.call "hk_internal_linear" x
    MyLinear1.call "old_linear" h)

/-- `_custom_forward_fn` from the notebook. -/
def custom_forward_fn (x : Int) : HaikuM Int :=
  MyModuleCustom.call "custom_linear" x

/-- `custom_forward_without_rng = hk.without_apply_rng(hk.transform(_custom_forward_fn))`. -/
def custom_forward_without_rng : TransformedNoRng Int :=
  without_apply_rng (transform custom_forward_fn)

/-- A pseudo-random bernoulli sample from a key; only the deterministic
dependence on the key matters for the claims. -/
def bernoulliFromKey (k : Nat) : Bool := k % 2 = 0

/-- The body of `HkRandom2.__call__` from the notebook: draws one key and
samples a bernoulli from it. -/
def HkRandom2.call (nm : String) (x : Int) : HaikuM Bool :=
  withModule nm (do
    let key1 ← next_rng_key
    pure (bernoulliFromKey key1))

/-- The body of `HkRandomNest.__call__` from the notebook: draws a key,
runs the nested `HkRandom2` module (which draws another key), and returns
the pair of bernoulli samples. -/
def HkRandomNest.call (nm : String) (x : Int) : HaikuM (Bool × Bool) :=
  withModule nm (do
    let key2 ← next_rng_key
    let p1 ← HkRandom2.call "hk_random2" x
    pure (p1, bernoulliFromKey key2))

/-- The function wrapped by the notebook's final `hk.transform` call. -/
def randNestFn (x : Int) : HaikuM (Bool × Bool) :=
  HkRandomNest.call "hk_random_nest" x

/-- `forward = hk.transform(lambda x: HkRandomNest()(x))`. -/
def forward : Transformed (Bool × Bool) := transform randNestFn

/-- Run a transformed body in apply mode and report the ghost trace of rng
keys it drew. -/
def applyKeyTrace (f : Int → HaikuM α) (params : Registry) (x : Int)
    (rng : Option Nat) : Except String (List Nat) :=
  match f x (applyCtx params [] rng) with
  | .error e => .error e
  | .ok (_, s) => .ok s.keysDrawn

/-- Run a transformed body in apply mode and report the full final
traversal context. -/
def applyFinalCtx (f : Int → HaikuM α) (params : Registry) (x : Int)
    (rng : Option Nat) : Except String HkContext :=
  match f x (applyCtx params [] rng) with
  | .error e => .error e
  | .ok (_, s) => .ok s

end Haiku

namespace HaikuRepo

/-- One supplied repository file with its line count (a final line not
terminated by a newline counts as a line). -/
structure SourceFile where
  path : String
  lineCount : Nat
deriving DecidableEq

/-- The two supplied source files: the tutorial notebook
docs/notebooks/basics.ipynb (498 lines) and the build descriptor
examples/transformer/BUILD (41 lines). -/
def repositoryFiles : List SourceFile :=
  [⟨"docs/notebooks/basics.ipynb", 498⟩,
   ⟨"examples/transformer/BUILD", 41⟩]

/-- A Bazel rule of examples/transformer/BUILD: a python binary or a python
library, with its source files and its non-comment dependencies. -/
inductive BuildRule where
  | pyBinary (name : String) (srcs : List String) (deps : List String)
  | pyLibrary (name : String) (srcs : List String) (deps : List String)
deriving DecidableEq

/-- Whether a rule is a binary rule. -/
def BuildRule.isBinary : BuildRule → Bool
  | .pyBinary _ _ _ => true
  | .pyLibrary _ _ _ => false

/-- The name of a rule. -/
def BuildRule.name : BuildRule → String
  | .pyBinary n _ _ => n
  | .pyLibrary n _ _ => n

/-- The source list of a rule. -/
def BuildRule.srcs : BuildRule → List String
  | .pyBinary _ s _ => s
  | .pyLibrary _ s _ => s

/-- The dependency list of a rule. -/
def BuildRule.deps : BuildRule → List String
  | .pyBinary _ _ d => d
  | .pyLibrary _ _ d => d

/-- The rules declared in examples/transformer/BUILD, in file order; the
`pip:` lines of the BUILD file are comments and are not dependencies. -/
def transformerBuildRules : List BuildRule :=
  [.pyBinary "train" ["train.py"] [":dataset", ":model", "//haiku"],
   .pyLibrary "dataset" ["dataset.py"] [],
   .pyLibrary "model" ["model.py"] ["//haiku"]]

end HaikuRepo

namespace Haiku

/-- Running a bind is a match on the first computation. -/
lemma hbind_run (m : HaikuM α) (f : α → HaikuM β) (s : HkContext) :
    (m >>= f) s =
      match m s with
      | .error e => .error e
      | .ok (a, s') => f a s' := rfl

/-- Characterization of the `forward_linear1` body in apply mode over an
arbitrary parameter registry: it only reads the two parameters and, on
success, hands back the incoming traversal context untouched. -/
lemma linear1_run_eq (params : Registry) (x : Int) (rng : Option Nat) :
    forward_fn_linear1 x (applyCtx params [] rng) =
      match Registry.find2 params "my_linear1" "w" with
      | none => .error "missing parameter my_linear1/w"
      | some w =>
        match Registry.find2 params "my_linear1" "b" with
        | none => .error "missing parameter my_linear1/b"
        | some b => .ok (x * w + b, applyCtx params [] rng) := by
  cases h1 : Registry.find2 params "my_linear1" "w" with
  | none =>
      simp [forward_fn_linear1, MyLinear1.call, withModule, hbind_run,
            get_parameter, pathKey, applyCtx, joinPath, h1]
  | some w =>
      cases h2 : Registry.find2 params "my_linear1" "b" with
      | none =>
          simp [forward_fn_linear1, MyLinear1.call, withModule, hbind_run,
                get_parameter, pathKey, applyCtx, joinPath, h1, h2]
      | some b =>
          simp [forward_fn_linear1, MyLinear1.call, withModule, hbind_run,
                get_parameter, pathKey, applyCtx, joinPath, h1, h2]

/-- The transformed `apply` of `forward_linear1` as a function of the two
parameter lookups alone; in particular it does not depend on the rng. -/
lemma linear1_apply_eq (params : Registry) (x : Int) (rng : Option Nat) :
    forward_linear1.apply params x rng =
      match Registry.find2 params "my_linear1" "w" with
      | none => .error "missing parameter my_linear1/w"
      | some w =>
        match Registry.find2 params "my_linear1" "b" with
        | none => .error "missing parameter my_linear1/b"
        | some b => .ok (x * w + b) := by
  simp only [forward_linear1, transform]
  rw [linear1_run_eq]
  cases Registry.find2 params "my_linear1" "w" with
  | none => rfl
  | some w => cases Registry.find2 params "my_linear1" "b" <;> rfl

/-- One `stateful_forward.apply` call with multiplier `m` and counter `c`
returns `x + m * c` using the pre-increment counter and a state with the
counter incremented by exactly one. -/
lemma stateful_apply_step (m c x : Int) :
    stateful_forward.apply [("~", [("multiplier", m)])] [("~", [("counter", c)])] x =
      .ok (x + m * c, [("~", [("counter", c + 1)])]) := rfl

/-- Threading the state through `n` successive `stateful_forward.apply`
calls starting from counter `c` produces outputs `x + c, …, x + c + n - 1`
and final counter `c + n`. -/
lemma applyLoop_counter (x : Int) (n : Nat) (c : Int) :
    applyLoop [("~", [("multiplier", 1)])] x [("~", [("counter", c)])] n =
      .ok ((List.range n).map (fun i : Nat => x + i + c),
           [("~", [("counter", c + n)])]) := by
  induction n generalizing c with
  | zero => simp [applyLoop]
  | succ n ih =>
      rw [applyLoop, stateful_apply_step]
      simp only [ih]
      rw [List.range_succ_eq_map]
      simp only [List.map_cons, List.map_map, Except.ok.injEq, Prod.mk.injEq,
                 List.cons.injEq]
      refine ⟨⟨by push_cast; ring, List.map_congr_left fun i _ => ?_⟩, ?_⟩
      · simp only [Function.comp]
        push_cast
        ring
      · simp only [true_and, and_true]
        push_cast
        ring

/-- C1: the transformed apply function is pure and side-effect-free: a run
of the `forward_linear1` body in apply mode that succeeds with output
`out` leaves the traversal context exactly as it was handed in (same
parameter registry, same state, no rng consumed), `apply` returns that
output, and two calls with identical arguments return identical outputs
(`apply` is a function of its arguments alone). -/
theorem forward_linear1_apply_pure (params : Registry) (x : Int)
    (rng : Option Nat) (out : Int) (s' : HkContext)
    (h : forward_fn_linear1 x (applyCtx params [] rng) = .ok (out, s')) :
    forward_linear1.apply params x rng = .ok out ∧
    s' = applyCtx params [] rng ∧
    forward_linear1.apply params x rng = forward_linear1.apply params x rng := by
  rw [linear1_run_eq] at h
  rw [linear1_apply_eq]
  cases h1 : Registry.find2 params "my_linear1" "w" with
  | none => rw [h1] at h; simp at h
  | some w =>
      cases h2 : Registry.find2 params "my_linear1" "b" with
      | none => rw [h1, h2] at h; simp at h
      | some b =>
          rw [h1, h2] at h
          simp only [Except.ok.injEq, Prod.mk.injEq] at h
          exact ⟨by simp [h.1], h.2.symm, rfl⟩

/-- Witness for C1 at the concrete registry with `w = 2`, `b = 1`, input
`3` and rng key `5`: the run succeeds with output `7` and an unchanged
context. -/
theorem forward_linear1_apply_pure_witness :
    forward_linear1.apply [("my_linear1", [("w", 2), ("b", 1)])] 3 (some 5) =
      .ok 7 ∧
    applyCtx [("my_linear1", [("w", 2), ("b", 1)])] [] (some 5) =
      applyCtx [("my_linear1", [("w", 2), ("b", 1)])] [] (some 5) ∧
    forward_linear1.apply [("my_linear1", [("w", 2), ("b", 1)])] 3 (some 5) =
      forward_linear1.apply [("my_linear1", [("w", 2), ("b", 1)])] 3 (some 5) :=
  forward_linear1_apply_pure [("my_linear1", [("w", 2), ("b", 1)])] 3 (some 5) 7
    (applyCtx [("my_linear1", [("w", 2), ("b", 1)])] [] (some 5)) rfl

/-- C2: within one invocation of the transformed `HkRandomNest` function,
every key returned by `next_rng_key` is deterministically derived from the
single initial key `k` (the ghost trace of drawn keys is exactly the first
two derivations from `k`, independent of the parameters), the random
samples of `apply` are a function of `k` alone (so two runs with the same
initial key yield identical samples), and the two distinct call sites
receive distinct keys. -/
theorem next_rng_key_deterministic_and_distinct (params : Registry) (x : Int)
    (k : Nat) :
    applyKeyTrace randNestFn params x (some k) =
      .ok [deriveKey k 0, deriveKey k 1] ∧
    forward.apply params x (some k) =
      .ok (bernoulliFromKey (deriveKey k 1), bernoulliFromKey (deriveKey k 0)) ∧
    deriveKey k 0 ≠ deriveKey k 1 :=
  ⟨rfl, rfl, by simp [deriveKey, Nat.pair_eq_pair]⟩

/-- C3: `forward_linear1.init` collects every parameter declared via
`get_parameter` into a nested mapping: the outer key is the module path
`my_linear1` and the inner mapping carries `w` (initialized from the first
key derived from the initial rng key) and `b` (initialized to ones). -/
theorem forward_linear1_init_collects_params (k : Nat) (x : Int) :
    forward_linear1.init (some k) x =
      .ok [("my_linear1", [("w", sampleFromKey (deriveKey k 0)), ("b", 1)])] :=
  rfl

/-- C4: the registry returned by `custom_forward_without_rng.init` is keyed
by module path: each key is the join of the ancestor module names along
the nesting path, and these joins are the literal notebook strings. -/
theorem custom_init_keys_mirror_nesting (k : Nat) (x : Int) :
    custom_forward_without_rng.init (some k) x = .ok
      [(joinPath (joinPath "custom_linear" "hk_internal_linear") "linear_0",
          [("w", sampleFromKey (deriveKey k 0)), ("b", 0)]),
       (joinPath (joinPath "custom_linear" "hk_internal_linear") "linear_1",
          [("w", sampleFromKey (deriveKey k 1)), ("b", 0)]),
       (joinPath "custom_linear" "old_linear",
          [("w", sampleFromKey (deriveKey k 2)), ("b", 1)])] ∧
    joinPath (joinPath "custom_linear" "hk_internal_linear") "linear_0" =
      "custom_linear/~/hk_internal_linear/~/linear_0" ∧
    joinPath (joinPath "custom_linear" "hk_internal_linear") "linear_1" =
      "custom_linear/~/hk_internal_linear/~/linear_1" ∧
    joinPath "custom_linear" "old_linear" = "custom_linear/~/old_linear" :=
  ⟨rfl, rfl, rfl, rfl⟩

/-- C5: `transform_with_state` turns `stateful_f` into a pure pair that
threads the state explicitly: `init` returns the parameters together with
every `get_state` declaration at its initializer value (counter `1`), and
`apply` on a state with counter `c` returns the pair of the output
`x + m * c` and a new state reflecting the `set_state` write (counter
`c + 1`), the input state value itself being a distinct unchanged value. -/
theorem transform_with_state_threads_state (k : Nat) (x m c x' : Int) :
    stateful_forward.init (some k) x =
      .ok ([("~", [("multiplier", 1)])], [("~", [("counter", 1)])]) ∧
    stateful_forward.apply [("~", [("multiplier", m)])]
        [("~", [("counter", c)])] x' =
      .ok (x' + m * c, [("~", [("counter", c + 1)])]) :=
  ⟨rfl, rfl⟩

/-- C8: `without_apply_rng` removes only the rng argument of `apply`: for
every parameter registry, input and rng key, the rng-less apply agrees
with the transformed apply at that key, and the two `init` functions
agree. -/
theorem without_apply_rng_equiv (params : Registry) (x : Int)
    (rng : Option Nat) (k : Nat) (x' : Int) :
    forward_without_rng.apply params x = forward_linear1.apply params x rng ∧
    forward_without_rng.init (some k) x' = forward_linear1.init (some k) x' := by
  constructor
  · have h1 : forward_without_rng.apply params x =
        forward_linear1.apply params x none := rfl
    rw [h1, linear1_apply_eq params x none, linear1_apply_eq params x rng]
  · rfl

/-- C9: for the counter example, `init` yields counter `1` and multiplier
`1`, and threading the state through `n` successive `apply` calls on the
same input `x` yields the outputs `x + 1, …, x + n` (so the `n`-th call
outputs `x + n`, using the pre-increment counter) and a final state with
counter `n + 1`. -/
theorem stateful_counter_iteration (k : Nat) (x : Int) (n : Nat) :
    statefulRun k x n =
      .ok ((List.range n).map (fun i : Nat => x + i + 1),
           [("~", [("counter", (n : Int) + 1)])]) := by
  have h0 : statefulRun k x n =
      applyLoop [("~", [("multiplier", 1)])] x [("~", [("counter", 1)])] n := rfl
  rw [h0, applyLoop_counter]
  rw [add_comm (1 : Int) (n : Int)]

/-- C10: parameters and state declared outside of any module are registered
under the reserved top-level path key; both registries returned by
`stateful_forward.init` and the state returned by every
`stateful_forward.apply` are keyed exactly by that key. -/
theorem toplevel_tilde_key_invariant (k : Nat) (x m c x' : Int) :
    (stateful_forward.init (some k) x).map
        (fun pr => (pr.1.map Prod.fst, pr.2.map Prod.fst)) =
      .ok (["~"], ["~"]) ∧
    (stateful_forward.apply [("~", [("multiplier", m)])]
        [("~", [("counter", c)])] x').map (fun pr => pr.2.map Prod.fst) =
      .ok ["~"] :=
  ⟨rfl, rfl⟩

end Haiku

namespace HaikuRepo

/-- C6: the supplied repository material is exactly the two source files,
totalling 539 lines (the 498-line notebook and the 41-line build
descriptor, a final unterminated line counting as a line). -/
theorem repository_line_total :
    repositoryFiles.length = 2 ∧
    (repositoryFiles.map SourceFile.lineCount).sum = 539 := by
  decide

/-- C7: the build descriptor declares exactly one binary target, named
`train` and built from train.py, depending on the two declared libraries
`dataset` (from dataset.py) and `model` (from model.py) as well as on
//haiku. -/
theorem build_declares_single_train_binary :
    (transformerBuildRules.filter fun r => r.isBinary) =
      [.pyBinary "train" ["train.py"] [":dataset", ":model", "//haiku"]] ∧
    BuildRule.pyLibrary "dataset" ["dataset.py"] [] ∈ transformerBuildRules ∧
    BuildRule.pyLibrary "model" ["model.py"] ["//haiku"] ∈ transformerBuildRules := by
  decide

end HaikuRepo
